import Mathlib

/- Formal model of the two Python scripts of the wikipedia-markdown-generator
   repository (scrape-vital-articles.py and generate-vital-articles-md.py).
   Strings are modelled as lists of characters; the relevant library calls
   (percent-decoding, regular-expression rewriting) are modelled character by
   character. -/

abbrev Str := List Char

def strLit (s : String) : Str := s.toList

namespace VA

/-- Base URL constant (scrape-vital-articles.py line 26). -/
def BASE_URL : Str := strLit "https://en.wikipedia.org"

/-- The article-namespace root "/wiki/" checked at line 37. -/
def wikiRoot : Str := strLit "/wiki/"

/-- Exclusion list of scrape-vital-articles.py lines 41-61, verbatim. -/
def excluded_prefixes : List Str :=
  [ strLit "/wiki/Wikipedia:"
  , strLit "/wiki/Help:"
  , strLit "/wiki/Category:"
  , strLit "/wiki/File:"
  , strLit "/wiki/Template:"
  , strLit "/wiki/Template_talk:"
  , strLit "/wiki/Portal:"
  , strLit "/wiki/Portal_talk:"
  , strLit "/wiki/Special:"
  , strLit "/wiki/Talk:"
  , strLit "/wiki/User:"
  , strLit "/wiki/User_talk:"
  , strLit "/wiki/Wikipedia_talk:"
  , strLit "/wiki/MediaWiki:"
  , strLit "/wiki/MediaWiki_talk:"
  , strLit "/wiki/Module:"
  , strLit "/wiki/Module_talk:"
  , strLit "/wiki/Draft:"
  , strLit "/wiki/Draft_talk:" ]

/-- Model of `is_valid_article_link` (scrape-vital-articles.py lines 32-72).
The anchor-stripping block at lines 67-70 rebinds a local variable and is
followed unconditionally by `return True`, so it cannot change the result. -/
def is_valid_article_link (href : Str) : Bool :=
  if href.isEmpty then false
  else if !(wikiRoot.isPrefixOf href) then false
  else if excluded_prefixes.any (fun p => p.isPrefixOf href) then false
  else true

/-- Value of a hexadecimal digit, upper or lower case. -/
def hexDigitVal (c : Char) : Option Nat :=
  if 48 ≤ c.toNat ∧ c.toNat ≤ 57 then some (c.toNat - 48)
  else if 97 ≤ c.toNat ∧ c.toNat ≤ 102 then some (c.toNat - 87)
  else if 65 ≤ c.toNat ∧ c.toNat ≤ 70 then some (c.toNat - 55)
  else none

/-- Model of `urllib.parse.unquote`: a percent sign followed by two
hexadecimal digits is decoded to the character with that byte value,
everything else is copied unchanged.  Multi-byte UTF-8 recombination is not
modelled; all inputs appearing in this development are ASCII, where the
byte-wise model agrees with the library. -/
def unquoteAux : Nat → Str → Str
  | 0, l => l
  | _ + 1, [] => []
  | fuel + 1, c :: rest =>
    if c = '%' then
      match rest with
      | c1 :: c2 :: rest2 =>
        match hexDigitVal c1, hexDigitVal c2 with
        | some hi, some lo => Char.ofNat (16 * hi + lo) :: unquoteAux fuel rest2
        | _, _ => c :: unquoteAux fuel rest
      | _ => c :: unquoteAux fuel rest
    else c :: unquoteAux fuel rest

def unquote (l : Str) : Str := unquoteAux l.length l

/-- Model of `extract_article_title` (scrape-vital-articles.py lines 75-86):
strip the six-character "/wiki/" root, truncate at the first anchor mark,
percent-decode; other strings are returned unchanged. -/
def extract_article_title (href : Str) : Str :=
  if wikiRoot.isPrefixOf href then
    unquote ((href.drop 6).takeWhile (fun c => c != '#'))
  else href

/- ------------------------------------------------------------------ -/
/- Helper lemmas about the list model of strings.                     -/
/- ------------------------------------------------------------------ -/

theorem isPrefixOf_iff_ex (l₁ : Str) :
    ∀ l₂ : Str, l₁.isPrefixOf l₂ = true ↔ ∃ t, l₁ ++ t = l₂ := by
  induction l₁ with
  | nil =>
    intro l₂
    simp [List.isPrefixOf]
  | cons a as ih =>
    intro l₂
    cases l₂ with
    | nil =>
      simp [List.isPrefixOf]
    | cons b bs =>
      simp only [List.isPrefixOf, Bool.and_eq_true, beq_iff_eq, ih bs]
      constructor
      · rintro ⟨hab, t, ht⟩
        exact ⟨t, by simp [hab, ht]⟩
      · rintro ⟨t, ht⟩
        simp only [List.cons_append, List.cons.injEq] at ht
        exact ⟨ht.1, t, ht.2⟩

theorem unquoteAux_eq_self (fuel : Nat) :
    ∀ l : Str, '%' ∉ l → unquoteAux fuel l = l := by
  induction fuel with
  | zero => intro l _; rfl
  | succ fuel ih =>
    intro l h
    cases l with
    | nil => rfl
    | cons c rest =>
      simp only [List.mem_cons, not_or] at h
      have hc : ¬ c = '%' := fun hcc => h.1 (hcc.symm)
      simp only [unquoteAux, if_neg hc]
      exact congrArg (c :: ·) (ih rest h.2)

theorem unquote_eq_self (l : Str) (h : '%' ∉ l) : unquote l = l :=
  unquoteAux_eq_self l.length l h

theorem mem_of_mem_takeWhile {p : Char → Bool} {l : Str} {a : Char}
    (h : a ∈ l.takeWhile p) : a ∈ l := by
  have hsplit := List.takeWhile_append_dropWhile p l
  rw [← hsplit]
  exact List.mem_append_left _ h

theorem pred_of_mem_takeWhile {p : Char → Bool} {l : Str} {a : Char}
    (h : a ∈ l.takeWhile p) : p a = true := by
  induction l with
  | nil => simp [List.takeWhile] at h
  | cons c rest ih =>
    rw [List.takeWhile_cons] at h
    by_cases hc : p c = true
    · rw [if_pos hc] at h
      rcases List.mem_cons.mp h with h | h
      · exact h ▸ hc
      · exact ih h
    · rw [if_neg hc] at h
      simp at h

/-- Unfolding of the validity check into its logical reading. -/
theorem is_valid_iff (href : Str) :
    is_valid_article_link href = true ↔
      (wikiRoot.isPrefixOf href = true ∧
        ∀ p ∈ excluded_prefixes, p.isPrefixOf href = false) := by
  constructor
  · intro hv
    unfold is_valid_article_link at hv
    by_cases h0 : href.isEmpty = true
    · rw [if_pos h0] at hv
      exact absurd hv (by simp)
    · rw [if_neg h0] at hv
      cases h1 : wikiRoot.isPrefixOf href with
      | false =>
        rw [h1] at hv
        exact absurd hv (by simp)
      | true =>
        rw [h1] at hv
        simp only [Bool.not_true, Bool.false_eq_true, if_false] at hv
        cases h2 : excluded_prefixes.any (fun p => p.isPrefixOf href) with
        | true =>
          rw [if_pos h2] at hv
          exact absurd hv (by simp)
        | false =>
          refine ⟨rfl, fun p hp => ?_⟩
          cases hb : p.isPrefixOf href with
          | false => rfl
          | true =>
            exfalso
            have : excluded_prefixes.any (fun p => p.isPrefixOf href) = true := by
              simp only [List.any_eq_true]
              exact ⟨p, hp, hb⟩
            rw [this] at h2
            exact absurd h2 (by simp)
  · rintro ⟨h1, h2⟩
    have h0 : href.isEmpty = false := by
      cases href with
      | nil => exact absurd h1 (by decide)
      | cons a l => rfl
    have h2' : excluded_prefixes.any (fun p => p.isPrefixOf href) = false := by
      cases hA : excluded_prefixes.any (fun p => p.isPrefixOf href) with
      | false => rfl
      | true =>
        exfalso
        simp only [List.any_eq_true] at hA
        obtain ⟨p, hp, hpp⟩ := hA
        rw [h2 p hp] at hpp
        exact absurd hpp (by simp)
    unfold is_valid_article_link
    rw [h0, h1, h2']
    simp

/- ------------------------------------------------------------------ -/
/- Claim C1                                                            -/
/- ------------------------------------------------------------------ -/

/-- C1 counterexample: the exclusion check of `is_valid_article_link` is
case-sensitive and its list has no talk variants for File, Category or
Help, so a lowercase namespace marker and the File talk namespace are both
accepted although the claim demands their rejection. -/
theorem claim1_counterexample :
    is_valid_article_link (strLit "/wiki/file:Foo") = true ∧
    is_valid_article_link (strLit "/wiki/File_talk:Foo") = true := by
  decide

/-- C1 (amended): `is_valid_article_link` returns true exactly for the
hrefs rooted at "/wiki/" that do not start, case-sensitively, with one of
the nineteen literal prefixes of its exclusion list; in particular a
lowercase namespace marker ("/wiki/file:Foo") and a talk namespace missing
from the list ("/wiki/File_talk:Foo") are accepted. -/
theorem claim1_theorem :
    (∀ href : Str, is_valid_article_link href = true ↔
      (wikiRoot.isPrefixOf href = true ∧
        ∀ p ∈ excluded_prefixes, p.isPrefixOf href = false)) ∧
    is_valid_article_link (strLit "/wiki/file:Foo") = true ∧
    is_valid_article_link (strLit "/wiki/File_talk:Foo") = true :=
  ⟨is_valid_iff, by decide, by decide⟩

/- ------------------------------------------------------------------ -/
/- Claim C3                                                            -/
/- ------------------------------------------------------------------ -/

/-- C3 counterexample: `extract_article_title` is not idempotent.  For
"/wiki//wiki/Foo" the first application yields "/wiki/Foo", which still
carries the article-namespace root, so a second application strips it
again and yields "Foo". -/
theorem claim3_counterexample :
    ¬ (extract_article_title (extract_article_title (strLit "/wiki//wiki/Foo")) =
        extract_article_title (strLit "/wiki//wiki/Foo")) := by
  decide

/-- Strings not rooted at "/wiki/" are returned unchanged. -/
theorem extract_id_of_not_root (s : Str) (hs : wikiRoot.isPrefixOf s = false) :
    extract_article_title s = s := by
  unfold extract_article_title
  rw [hs]
  simp

/-- C3 (amended): `extract_article_title` is idempotent on every href whose
extracted identifier does not itself begin with the "/wiki/" root — on such
outputs the function is the identity, so re-applying it (in particular
re-decoding an already decoded reference) is a no-op. -/
theorem claim3_theorem (href : Str)
    (h : wikiRoot.isPrefixOf (extract_article_title href) = false) :
    extract_article_title (extract_article_title href) = extract_article_title href :=
  extract_id_of_not_root (extract_article_title href) h

/-- Witness for C3: a well-formed article href satisfies the hypothesis and
the amended idempotence. -/
theorem claim3_witness :
    wikiRoot.isPrefixOf (extract_article_title (strLit "/wiki/The_arts")) = false ∧
    extract_article_title (extract_article_title (strLit "/wiki/The_arts")) =
      extract_article_title (strLit "/wiki/The_arts") :=
  ⟨by decide, claim3_theorem (strLit "/wiki/The_arts") (by decide)⟩

/- ------------------------------------------------------------------ -/
/- Claim C4                                                            -/
/- ------------------------------------------------------------------ -/

/-- C4 counterexample: percent-encoded hrefs defeat the claimed invariant.
"/wiki/File%3AFoo" is accepted by the classifier, yet its extracted
identifier "File:Foo" starts with the excluded namespace marker "File:";
likewise "/wiki/Foo%23Bar" is accepted and decodes to an identifier
containing a raw anchor mark. -/
theorem claim4_counterexample :
    is_valid_article_link (strLit "/wiki/File%3AFoo") = true ∧
    extract_article_title (strLit "/wiki/File%3AFoo") = strLit "File:Foo" ∧
    strLit "/wiki/File:" ∈ excluded_prefixes ∧
    (strLit "File:").isPrefixOf (extract_article_title (strLit "/wiki/File%3AFoo")) = true ∧
    is_valid_article_link (strLit "/wiki/Foo%23Bar") = true ∧
    '#' ∈ extract_article_title (strLit "/wiki/Foo%23Bar") := by
  decide

/-- C4 (amended): for every href accepted by `is_valid_article_link` that
contains no percent escape, the extracted identifier contains no raw anchor
mark and does not begin with any namespace marker of the exclusion list. -/
theorem claim4_theorem (href : Str) (hp : '%' ∉ href)
    (hv : is_valid_article_link href = true) :
    '#' ∉ extract_article_title href ∧
    ∀ p ∈ excluded_prefixes,
      (p.drop 6).isPrefixOf (extract_article_title href) = false := by
  obtain ⟨h1, h2⟩ := (is_valid_iff href).mp hv
  obtain ⟨t, ht⟩ := (isPrefixOf_iff_ex wikiRoot href).mp h1
  have hdrop : href.drop 6 = t := by
    have h6 : wikiRoot.length = 6 := by decide
    rw [← ht, ← h6, List.drop_left]
  have hext : extract_article_title href =
      unquote ((href.drop 6).takeWhile (fun c => c != '#')) := by
    unfold extract_article_title
    rw [h1]
    simp
  have hpct : '%' ∉ (href.drop 6).takeWhile (fun c => c != '#') := by
    intro hm
    have : '%' ∈ href.drop 6 := mem_of_mem_takeWhile hm
    rw [hdrop] at this
    exact hp (by rw [← ht]; exact List.mem_append_right _ this)
  have huq : extract_article_title href =
      (href.drop 6).takeWhile (fun c => c != '#') := by
    rw [hext, unquote_eq_self _ hpct]
  constructor
  · intro hm
    rw [huq] at hm
    have := pred_of_mem_takeWhile hm
    simp at this
  · intro p hpmem
    cases hb : (p.drop 6).isPrefixOf (extract_article_title href) with
    | false => rfl
    | true =>
      exfalso
      have hall : ∀ q ∈ excluded_prefixes, wikiRoot ++ q.drop 6 = q := by decide
      have hpsplit : wikiRoot ++ p.drop 6 = p := hall p hpmem
      obtain ⟨s, hs⟩ :=
        (isPrefixOf_iff_ex (p.drop 6)
          ((href.drop 6).takeWhile (fun c => c != '#'))).mp (by rw [← huq]; exact hb)
      have htw : ∃ r, (href.drop 6).takeWhile (fun c => c != '#') ++ r = href.drop 6 :=
        ⟨(href.drop 6).dropWhile (fun c => c != '#'),
          List.takeWhile_append_dropWhile _ _⟩
      obtain ⟨r, hr⟩ := htw
      have hpref : p.isPrefixOf href = true := by
        rw [isPrefixOf_iff_ex]
        refine ⟨s ++ r, ?_⟩
        rw [← hpsplit, List.append_assoc, ← List.append_assoc (List.drop 6 p) s r,
          hs, hr, hdrop, ht]
      rw [h2 p hpmem] at hpref
      exact absurd hpref (by simp)

/-- Witness for C4: a concrete anchor-carrying href without percent escapes
is accepted and its identifier has no anchor mark and no excluded namespace
marker. -/
theorem claim4_witness :
    '#' ∉ extract_article_title (strLit "/wiki/Foo#Bar") ∧
    ((strLit "/wiki/File:").drop 6).isPrefixOf
      (extract_article_title (strLit "/wiki/Foo#Bar")) = false := by
  have h := claim4_theorem (strLit "/wiki/Foo#Bar") (by decide) (by decide)
  exact ⟨h.1, h.2 (strLit "/wiki/File:") (by decide)⟩

/- ------------------------------------------------------------------ -/
/- Traversal engine (scrape-vital-articles.py lines 123-214).          -/
/- ------------------------------------------------------------------ -/

/-- Result of one HTTP fetch: a transport failure (the requests call
raised), or a parsed page carrying the hrefs of the anchors inside its
`mw-content-text` div, `none` when that div is absent. -/
inductive FetchResult where
  | failure : FetchResult
  | page : Option (List Str) → FetchResult
deriving DecidableEq

/-- Loop body of `scrape_articles_from_page` (lines 152-158): keep hrefs
accepted by the classifier whose extracted title is nonempty. -/
def article_step (articles : Finset Str) (href : Str) : Finset Str :=
  if is_valid_article_link href then
    if (extract_article_title href).isEmpty then articles
    else insert (extract_article_title href) articles
  else articles

/-- `scrape_articles_from_page` (lines 123-160), with the HTTP layer passed
in as a function from URL to `FetchResult`. -/
def scrape_articles_from_page (fetch : Str → FetchResult) (url : Str) : Finset Str :=
  match fetch url with
  | .failure => ∅
  | .page none => ∅
  | .page (some links) => links.foldl article_step ∅

/-- Strip trailing slashes, `url.rstrip` at line 189. -/
def rstripSlash (s : Str) : Str :=
  (s.reverse.dropWhile (fun c => c = '/')).reverse

/-- The vital-articles listing namespace root checked at line 197. -/
def vitalRoot : Str := strLit "/wiki/Wikipedia:Vital_articles/Level/"

/-- Substring test, the model of the Python `in` operator on strings. -/
def isSubstring (needle : Str) : Str → Bool
  | [] => needle.isEmpty
  | c :: rest => needle.isPrefixOf (c :: rest) || isSubstring needle rest

/-- Condition of lines 197-200 deciding that `href` names a nested subpage
of the page at `url`. -/
def isNestedSubpageLink (url href : Str) : Bool :=
  vitalRoot.isPrefixOf href
  && (rstripSlash url ++ strLit "/").isPrefixOf (BASE_URL ++ href)
  && !(decide (BASE_URL ++ href = url))
  && !(href.contains '#')
  && !(isSubstring (strLit "Talk:") href)

/-- Accumulation step of the `nested_subpage_links` list (lines 200-203):
append the full URL unless already collected. -/
def nested_step (url : Str) (acc : List Str) (href : Str) : List Str :=
  if isNestedSubpageLink url href then
    if BASE_URL ++ href ∈ acc then acc else acc ++ [BASE_URL ++ href]
  else acc

/-- The `nested_subpage_links` list built by the loop at lines 191-203. -/
def nested_subpage_links (url : Str) (links : List Str) : List Str :=
  links.foldl (nested_step url) []

/-- `scrape_page_with_subpages` (lines 163-214).  The source recurses on
discovered subpage URLs; the model adds an explicit fuel parameter bounding
the recursion depth (in the source the recursion is bounded by the Python
call stack; the `level` and `depth` parameters only affect log indentation
and are omitted).  When the content div is absent the loop is skipped, no
subpages are found and the function falls through to
`scrape_articles_from_page`, exactly as in the source. -/
def scrape_page_with_subpages (fetch : Str → FetchResult) : Nat → Str → Finset Str
  | 0, _ => ∅
  | fuel + 1, url =>
    match fetch url with
    | .failure => ∅
    | .page content =>
      let links := content.getD []
      let has_subpages := links.any (isNestedSubpageLink url)
      let nested := nested_subpage_links url links
      if has_subpages && !nested.isEmpty then
        nested.foldl (fun acc u => acc ∪ scrape_page_with_subpages fetch fuel u) ∅
      else
        scrape_articles_from_page fetch url

/-- Membership in a left fold of set unions. -/
theorem mem_foldl_union (fetch : Str → FetchResult) (fuel : Nat) :
    ∀ (l : List Str) (s : Finset Str) (x : Str),
      x ∈ l.foldl (fun acc u => acc ∪ scrape_page_with_subpages fetch fuel u) s ↔
        x ∈ s ∨ ∃ u ∈ l, x ∈ scrape_page_with_subpages fetch fuel u := by
  intro l
  induction l with
  | nil => intro s x; simp
  | cons a l ih =>
    intro s x
    rw [List.foldl_cons, ih]
    simp only [Finset.mem_union, List.mem_cons]
    constructor
    · rintro ((h | h) | ⟨u, hu, hx⟩)
      · exact Or.inl h
      · exact Or.inr ⟨a, Or.inl rfl, h⟩
      · exact Or.inr ⟨u, Or.inr hu, hx⟩
    · rintro (h | ⟨u, (rfl | hu), hx⟩)
      · exact Or.inl (Or.inl h)
      · exact Or.inl (Or.inr hx)
      · exact Or.inr ⟨u, hu, hx⟩

/-- The nested-subpage accumulator preserves duplicate-freedom. -/
theorem nested_foldl_nodup (url : Str) :
    ∀ (links : List Str) (acc : List Str), acc.Nodup →
      (links.foldl (nested_step url) acc).Nodup := by
  intro links
  induction links with
  | nil => intro acc h; exact h
  | cons a l ih =>
    intro acc h
    rw [List.foldl_cons]
    apply ih
    unfold nested_step
    by_cases hc : isNestedSubpageLink url a = true
    · rw [if_pos hc]
      by_cases hm : BASE_URL ++ a ∈ acc
      · rw [if_pos hm]; exact h
      · rw [if_neg hm]
        rw [List.nodup_append]
        exact ⟨h, List.nodup_singleton _, by
          intro x hx hx1
          rw [List.mem_singleton] at hx1
          exact hm (hx1 ▸ hx)⟩
    · rw [if_neg hc]; exact h

/-- If no link passes the nested-subpage test the accumulator is unchanged. -/
theorem nested_foldl_const (url : Str) :
    ∀ (links : List Str), links.any (isNestedSubpageLink url) = false →
      ∀ acc, links.foldl (nested_step url) acc = acc := by
  intro links
  induction links with
  | nil => intro _ acc; rfl
  | cons a l ih =>
    intro h acc
    rw [List.any_cons] at h
    rw [Bool.or_eq_false_iff] at h
    rw [List.foldl_cons]
    have hstep : nested_step url acc a = acc := by
      unfold nested_step
      rw [h.1]
      simp
    rw [hstep]
    exact ih h.2 acc

/-- If every link is rejected or yields an empty title, the article fold is
the identity. -/
theorem article_foldl_const :
    ∀ (links : List Str),
      (∀ h ∈ links, is_valid_article_link h = false ∨
        (extract_article_title h).isEmpty = true) →
      ∀ s : Finset Str, links.foldl article_step s = s := by
  intro links
  induction links with
  | nil => intro _ s; rfl
  | cons a l ih =>
    intro h s
    rw [List.foldl_cons]
    have hstep : article_step s a = s := by
      unfold article_step
      rcases h a (List.mem_cons_self a l) with ha | ha
      · rw [ha]; simp
      · by_cases hv : is_valid_article_link a = true
        · rw [hv, ha]; simp
        · have : is_valid_article_link a = false := by
            cases hb : is_valid_article_link a
            · rfl
            · exact absurd hb hv
          rw [this]; simp
    rw [hstep]
    exact ih (fun x hx => h x (List.mem_cons_of_mem a hx)) s

/- ------------------------------------------------------------------ -/
/- Claim C5                                                            -/
/- ------------------------------------------------------------------ -/

/-- C5: when a fetched page lists at least one nested listing reference,
the recursive traversal returns exactly the union of the sets returned for
its nested listings (so none of the page's own direct article references
are collected), the nested-listing list is duplicate-free (each listing is
visited once), and a page whose links yield no nested listing and no valid
article reference produces the empty set. -/
theorem claim5_theorem (fetch : Str → FetchResult) (url : Str)
    (links : List Str) (n : Nat)
    (hf : fetch url = FetchResult.page (some links)) :
    (nested_subpage_links url links ≠ [] →
      ((∀ x, x ∈ scrape_page_with_subpages fetch (n + 1) url ↔
          ∃ u ∈ nested_subpage_links url links,
            x ∈ scrape_page_with_subpages fetch n u)
       ∧ (nested_subpage_links url links).Nodup))
    ∧ (nested_subpage_links url links = [] →
        (∀ h ∈ links, is_valid_article_link h = false ∨
          (extract_article_title h).isEmpty = true) →
        scrape_page_with_subpages fetch (n + 1) url = ∅) := by
  have hunfold : scrape_page_with_subpages fetch (n + 1) url =
      (if links.any (isNestedSubpageLink url) && !(nested_subpage_links url links).isEmpty then
        (nested_subpage_links url links).foldl
          (fun acc u => acc ∪ scrape_page_with_subpages fetch n u) ∅
      else scrape_articles_from_page fetch url) := by
    rw [scrape_page_with_subpages, hf]
    rfl
  constructor
  · intro hne
    have hany : links.any (isNestedSubpageLink url) = true := by
      cases hA : links.any (isNestedSubpageLink url) with
      | true => rfl
      | false => exact absurd (nested_foldl_const url links hA []) hne
    have hemp : (nested_subpage_links url links).isEmpty = false := by
      cases hE : (nested_subpage_links url links).isEmpty with
      | false => rfl
      | true =>
        exfalso
        apply hne
        cases hl : nested_subpage_links url links with
        | nil => rfl
        | cons a l => rw [hl] at hE; simp [List.isEmpty] at hE
    rw [hany, hemp] at hunfold
    simp only [Bool.not_false, Bool.and_self, if_true] at hunfold
    constructor
    · intro x
      rw [hunfold, mem_foldl_union]
      simp
    · exact nested_foldl_nodup url links [] (List.nodup_nil)
  · intro hnil hleaf
    have hemp : (nested_subpage_links url links).isEmpty = true := by
      rw [hnil]; rfl
    rw [hemp] at hunfold
    simp only [Bool.not_true, Bool.and_false, if_false] at hunfold
    rw [hunfold]
    unfold scrape_articles_from_page
    rw [hf]
    exact article_foldl_const links hleaf ∅

/-- Demonstration world for the traversal: one root listing with two nested
subpage links, each leading to a leaf page with one article link. -/
def demoRoot : Str := strLit "https://en.wikipedia.org/wiki/Wikipedia:Vital_articles/Level/4"

def demoHrefA : Str := strLit "/wiki/Wikipedia:Vital_articles/Level/4/People"

def demoHrefB : Str := strLit "/wiki/Wikipedia:Vital_articles/Level/4/History"

def demoFetch : Str → FetchResult := fun u =>
  if u = demoRoot then FetchResult.page (some [demoHrefA, demoHrefB])
  else if u = BASE_URL ++ demoHrefA then FetchResult.page (some [strLit "/wiki/Apple"])
  else if u = BASE_URL ++ demoHrefB then FetchResult.page (some [strLit "/wiki/Bridge"])
  else FetchResult.failure

/-- Witness for C5 at the demonstration world. -/
theorem claim5_witness :
    (nested_subpage_links demoRoot [demoHrefA, demoHrefB]).Nodup ∧
    strLit "Apple" ∈ scrape_page_with_subpages demoFetch 2 demoRoot := by
  have h := claim5_theorem demoFetch demoRoot [demoHrefA, demoHrefB] 1 (by decide)
  have h1 := h.1 (by decide)
  refine ⟨h1.2, ?_⟩
  exact (h1.1 (strLit "Apple")).mpr ⟨BASE_URL ++ demoHrefA, by decide, by decide⟩

/- ------------------------------------------------------------------ -/
/- Claim C6                                                            -/
/- ------------------------------------------------------------------ -/

/-- C6: on a transport failure both traversal entry points return the
empty set instead of raising, so the caller continues with other roots. -/
theorem claim6_theorem (fetch : Str → FetchResult) (url : Str)
    (hf : fetch url = FetchResult.failure) :
    scrape_articles_from_page fetch url = ∅ ∧
    ∀ n, scrape_page_with_subpages fetch n url = ∅ := by
  constructor
  · unfold scrape_articles_from_page
    rw [hf]
  · intro n
    cases n with
    | zero => rfl
    | succ n => rw [scrape_page_with_subpages, hf]

/-- Witness for C6: a fetcher that always fails. -/
theorem claim6_witness :
    scrape_articles_from_page (fun _ => FetchResult.failure) (strLit "u") = ∅ ∧
    scrape_page_with_subpages (fun _ => FetchResult.failure) 3 (strLit "u") = ∅ :=
  ⟨(claim6_theorem (fun _ => FetchResult.failure) (strLit "u") rfl).1,
   (claim6_theorem (fun _ => FetchResult.failure) (strLit "u") rfl).2 3⟩

/- ------------------------------------------------------------------ -/
/- Content normalizer, clean_content                                   -/
/- (generate-vital-articles-md.py lines 30-61).                        -/
/- ------------------------------------------------------------------ -/

/-- Python regex whitespace class, also the set stripped by `str.strip`. -/
def pyWs (c : Char) : Bool :=
  c == ' ' || c == '\t' || c == '\n' || c == '\r'
    || c == Char.ofNat 11 || c == Char.ofNat 12

def isLowerAlpha (c : Char) : Bool :=
  97 ≤ c.toNat && c.toNat ≤ 122

/-- Python `str.strip`. -/
def pyStrip (s : Str) : Str :=
  ((s.dropWhile pyWs).reverse.dropWhile pyWs).reverse

/-- Generic scanner realizing `re.sub`: at each position the matcher either
consumes at least one character and emits a replacement, or the scanner
copies one character and moves on; replacements are not rescanned.  Fuel
equals the input length, which suffices because every step consumes at
least one character. -/
def subScanAux (m : Str → Option (Nat × Str)) : Nat → Str → Str
  | 0, l => l
  | _ + 1, [] => []
  | fuel + 1, c :: rest =>
    match m (c :: rest) with
    | some (n, rep) => rep ++ subScanAux m fuel ((c :: rest).drop (max n 1))
    | none => c :: subScanAux m fuel rest

def subScan (m : Str → Option (Nat × Str)) (l : Str) : Str :=
  subScanAux m l.length l

/-- Matcher for the pass at line 41, pattern
`\s*\x7b\s*\\[a-z]+style[^\x7d]*\x7d`: leading whitespace, an opening
brace, whitespace, a backslash, then a lowercase run that contains the
letters of "style" after at least one letter, then everything up to the
first closing brace; the whole match is deleted. -/
def m1 (l : Str) : Option (Nat × Str) :=
  let w1 := l.takeWhile pyWs
  match l.drop w1.length with
  | '{' :: r2 =>
    let w2 := r2.takeWhile pyWs
    match r2.drop w2.length with
    | '\\' :: r4 =>
      let letters := r4.takeWhile isLowerAlpha
      if isSubstring (strLit "style") (letters.drop 1) then
        let r5 := r4.drop letters.length
        let body := r5.takeWhile (fun c => c != '}')
        if body.length < r5.length then
          some (w1.length + 1 + w2.length + 1 + letters.length + body.length + 1, [])
        else none
      else none
    | _ => none
  | _ => none

/-- Matcher for the pass at line 42, pattern
`\x7b[^\x7d]*displaystyle[^\x7d]*\x7d`: a brace-delimited block whose body
contains "displaystyle" is replaced by the placeholder "[formula]". -/
def m2 (l : Str) : Option (Nat × Str) :=
  match l with
  | '{' :: r =>
    let body := r.takeWhile (fun c => c != '}')
    if body.length < r.length && isSubstring (strLit "displaystyle") body then
      some (1 + body.length + 1, strLit "[formula]")
    else none
  | _ => none

/-- A backslash immediately followed by a lowercase letter. -/
def hasBackslashLower : Str → Bool
  | b :: c :: r => (b == '\\' && isLowerAlpha c) || hasBackslashLower (c :: r)
  | _ => false

/-- Matcher for the pass at line 43, pattern `\([^)]*\\[a-z]+[^)]*\)`: a
parenthesized fragment containing a backslash-prefixed lowercase directive
is deleted. -/
def m3 (l : Str) : Option (Nat × Str) :=
  match l with
  | '(' :: r =>
    let body := r.takeWhile (fun c => c != ')')
    if body.length < r.length && hasBackslashLower body then
      some (1 + body.length + 1, [])
    else none
  | _ => none

/-- Matcher for the pass at line 56, pattern `\n{3,}` replaced by a pair of
newlines. -/
def m7 (l : Str) : Option (Nat × Str) :=
  let run := l.takeWhile (fun c => c == '\n')
  if 3 ≤ run.length then some (run.length, strLit "\n\n") else none

/-- Matcher for the pass at line 59, pattern `\s+\(\s*\)`: whitespace
followed by an empty pair of parentheses is deleted. -/
def m8 (l : Str) : Option (Nat × Str) :=
  let w := l.takeWhile pyWs
  if w.length = 0 then none
  else
    match l.drop w.length with
    | '(' :: r =>
      let w2 := r.takeWhile pyWs
      match r.drop w2.length with
      | ')' :: _ => some (w.length + 1 + w2.length + 1, [])
      | _ => none
    | _ => none

/-- Apply a per-line rewrite under `re.MULTILINE` anchors.  All heading
patterns of the source are line-anchored; this model treats them line by
line, which is exact for inputs whose heading lines do not span multiple
lines (the character classes of those patterns exclude the newline on every
input considered here). -/
def mapLines (f : Str → Str) (s : Str) : Str :=
  List.intercalate ['\n'] ((s.splitOn '\n').map f)

/-- Number of leading copies of a character. -/
def countLeading (c : Char) (s : Str) : Nat :=
  (s.takeWhile (fun d => d == c)).length

/-- Number of trailing copies of a character. -/
def countTrailing (c : Char) (s : Str) : Nat :=
  (s.reverse.takeWhile (fun d => d == c)).length

/-- Capture of a lazy group flanked by greedy `\s*`: the whitespace-trimmed
middle, except that an all-whitespace middle captures only its last
character. -/
def lazyGroup (mid : Str) : Str :=
  let g := pyStrip mid
  if g.isEmpty then mid.drop (mid.length - 1) else g

/-- Line rewrite for the pass at line 47, pattern
`^=+(#\x7b1,6\x7d)\s*([^=\n]+?)\s*=+$` replaced by `\1 \2`: a leading
equals run, one to six hash marks, a middle without equals signs, a
trailing equals run.  When the hash run or middle would leave the lazy
group empty, the hash group backtracks, mirrored here by clipping its
length. -/
def pass4Line (line : Str) : Str :=
  let e1 := countLeading '=' line
  let e2 := countTrailing '=' line
  let hrun := countLeading '#' (line.drop e1)
  if e1 = 0 ∨ hrun = 0 ∨ e2 = 0 ∨ line.length < e1 + e2 + 2 then line
  else
    let g1len := min (min hrun 6) (line.length - e1 - e2 - 1)
    let mid := (line.drop (e1 + g1len)).take (line.length - e1 - g1len - e2)
    if mid.contains '=' then line
    else (List.replicate g1len '#') ++ ' ' :: lazyGroup mid

/-- Line rewrite for the pass at line 48, pattern `^=+\s*([^=\n]+?)\s*=+$`
replaced by `## \1`: any line wrapped in equals runs with a nonempty
equals-free middle becomes a level-2 heading. -/
def pass5Line (line : Str) : Str :=
  let e1 := countLeading '=' line
  let e2 := countTrailing '=' line
  if e1 = 0 ∨ e2 = 0 ∨ line.length < e1 + e2 + 1 then line
  else
    let mid := (line.drop e1).take (line.length - e1 - e2)
    if mid.contains '=' then line
    else strLit "## " ++ lazyGroup mid

/-- Head match of the passes at lines 51-53, pattern
`^={k}\s*([^=]+?)\s*={k}\s*$` for k = 4, 3, 2, restricted to one line:
exactly k markers on each side around an equals-free middle, trailing
whitespace ignored here and handled by `pass6LinesAux`. -/
def pass6Head (k : Nat) (line : Str) : Option Str :=
  let stripped := (line.reverse.dropWhile pyWs).reverse
  let e1 := countLeading '=' stripped
  let e2 := countTrailing '=' stripped
  if e1 = k ∧ e2 = k ∧ k + k + 1 ≤ stripped.length then
    let mid := (stripped.drop k).take (stripped.length - k - k)
    if mid.contains '=' then none
    else some ((List.replicate k '#') ++ ' ' :: lazyGroup mid)
  else none

/-- A line consisting of whitespace only. -/
def allWs (s : Str) : Bool := s.all pyWs

/-- The passes at lines 51-53 over the line list.  The trailing `\s*$` of
these patterns is greedy and crosses line ends: after a matched heading it
consumes the run of following whitespace-only lines, stopping before the
last line separator when a non-blank line follows and at the end of the
text otherwise.  Fuel equals the number of lines; every step consumes at
least one line. -/
def pass6LinesAux (k : Nat) : Nat → List Str → List Str
  | 0, ls => ls
  | _ + 1, [] => []
  | fuel + 1, l :: rest =>
    match pass6Head k l with
    | none => l :: pass6LinesAux k fuel rest
    | some repl =>
      let rest2 := rest.dropWhile allWs
      if rest2.isEmpty then [repl]
      else repl :: pass6LinesAux k fuel rest2

/-- One pass of lines 51-53 over the whole text. -/
def pass6Text (k : Nat) (s : Str) : Str :=
  List.intercalate ['\n'] (pass6LinesAux k (s.splitOn '\n').length (s.splitOn '\n'))

/-- `clean_content` (generate-vital-articles-md.py lines 30-61): the
ordered rewrite passes of the source, in source order. -/
def clean_content (content : Str) : Str :=
  let c1 := subScan m1 content
  let c2 := subScan m2 c1
  let c3 := subScan m3 c2
  let c4 := mapLines pass4Line c3
  let c5 := mapLines pass5Line c4
  let c6a := pass6Text 4 c5
  let c6b := pass6Text 3 c6a
  let c6c := pass6Text 2 c6b
  let c7 := subScan m7 c6c
  let c8 := subScan m8 c7
  pyStrip c8

/- ------------------------------------------------------------------ -/
/- Claim C2                                                            -/
/- ------------------------------------------------------------------ -/

/-- C2 counterexample: on the raw body "=== Foo ===\n\ntext" the
normalizer yields "## Foo", not the claimed "### Foo": the
malformed-heading repair pass at line 48 matches every line wrapped in
equals runs and rewrites it to a level-2 heading before the three-marker
pass at line 52 can run. -/
theorem claim2_counterexample :
    clean_content (strLit "=== Foo ===\n\ntext") = strLit "## Foo\n\ntext" ∧
    ¬ (strLit "## Foo\n\ntext" = strLit "### Foo\n\ntext") := by
  constructor
  · rfl
  · decide

/-- C2 (amended): for the raw body "=== Foo ===\n\ntext" the normalizer
produces "## Foo", a blank line, then "text", because the repair pass at
line 48 consumes every exact-form marker heading first; the level-4/3/2
conversions of lines 51-53 apply only to marker lines that pass missed,
such as those with trailing whitespace after the closing markers — those
become level-4, level-3 and level-2 headings, with the following blank
line swallowed by the trailing whitespace of the patterns. -/
theorem claim2_theorem :
    clean_content (strLit "=== Foo ===\n\ntext") = strLit "## Foo\n\ntext" ∧
    clean_content (strLit "==== Foo ==== \n\ntext") = strLit "#### Foo\ntext" ∧
    clean_content (strLit "=== Foo === \n\ntext") = strLit "### Foo\ntext" ∧
    clean_content (strLit "== Foo == \n\ntext") = strLit "## Foo\ntext" := by
  refine ⟨rfl, rfl, rfl, rfl⟩

/- ------------------------------------------------------------------ -/
/- Batch orchestrator, generate_markdown and process_level             -/
/- (generate-vital-articles-md.py lines 64-227).                       -/
/- ------------------------------------------------------------------ -/

/-- A retrieved article document: the fields of the wikipedia page object
used at lines 86-95. -/
structure WikiPage where
  title : Str
  content : Str
  url : Str
deriving DecidableEq

/-- Outcome of `wikipedia.page(topic, auto_suggest=False)`: the exception
taxonomy caught at lines 76-83. -/
inductive Retrieval where
  | success : WikiPage → Retrieval
  | disambiguation : List Str → Retrieval
  | pageError : Retrieval
  | otherError : Str → Retrieval
deriving DecidableEq

/-- Apostrophe character, kept out of literals. -/
def apos : Char := Char.ofNat 39

/-- Python `str` of one string, as it appears inside a formatted list. -/
def pyStrRepr (s : Str) : Str := apos :: (s ++ [apos])

/-- Python `str` of a list of strings, as interpolated by the f-string at
line 79 (element quoting simplified to plain single quotes, exact for
option titles that contain no quote characters). -/
def pyListRepr (l : List Str) : Str :=
  '[' :: (List.intercalate (strLit ", ") (l.map pyStrRepr)) ++ [']']

/-- `generate_markdown` (lines 64-106), with the wikipedia library call
passed in as `retrieve`.  Returns the `(success, markdown_text, error_msg)`
triple of the source; the image download branch is a no-op stub in the
source and contributes nothing. -/
def generate_markdown (retrieve : Str → Retrieval) (topic : Str) :
    Bool × Option Str × Option Str :=
  match retrieve topic with
  | .disambiguation opts =>
    (false, none, some (strLit "Disambiguation page: " ++ pyListRepr (opts.take 3)))
  | .pageError => (false, none, some (strLit "Page not found"))
  | .otherError msg => (false, none, some (strLit "Error: " ++ msg))
  | .success page =>
    (true,
     some (strLit "# " ++ page.title ++ strLit "\n\n"
       ++ clean_content page.content
       ++ strLit "\n\n---\n*Source: " ++ page.url ++ strLit "*\n"),
     none)

def OUTPUT_BASE_DIR : Str := strLit "md_output/vital_articles"

def natToStr (n : Nat) : Str := (toString n).toList

/-- Filename sanitization shared by `save_markdown` (line 146) and the
resume check (line 204). -/
def safe_filename (topic : Str) : Str :=
  topic.map (fun c => if c = '/' ∨ c = '\\' then '_' else c)

/-- Output path checked at line 205 and written at lines 142-147. -/
def output_file (level : Nat) (topic : Str) : Str :=
  OUTPUT_BASE_DIR ++ strLit "/level" ++ natToStr level
    ++ strLit "/" ++ safe_filename topic ++ strLit ".md"

/-- The resume condition at line 207. -/
def skip_check (exists_output : Str → Bool) (level : Nat) (resume : Bool)
    (topic : Str) : Bool :=
  resume && exists_output (output_file level topic)

def eqBar : Str := List.replicate 60 '='

/-- The statistics dictionary of lines 182-189. -/
structure Stats where
  level : Nat
  total : Nat
  success : Nat
  failed : Nat
  skipped : Nat
  errors : List Str
deriving DecidableEq

/-- State accumulated by the `process_level` loop: the statistics dict, the
content written to the error-log handle, the markdown artifacts written,
and the topics for which a retrieval was actually performed. -/
structure RunResult where
  stats : Stats
  log : Str
  saved : List (Str × Str)
  fetched : List Str
deriving DecidableEq

/-- Loop body of `process_level` (lines 202-221). -/
def process_topic (retrieve : Str → Retrieval) (exists_output : Str → Bool)
    (level : Nat) (resume : Bool) (r : RunResult) (topic : Str) : RunResult :=
  if skip_check exists_output level resume topic then
    { r with stats := { r.stats with skipped := r.stats.skipped + 1 } }
  else
    match generate_markdown retrieve topic with
    | (true, md, _) =>
      { r with
        stats := { r.stats with success := r.stats.success + 1 }
        saved := r.saved ++ [(topic, md.getD [])]
        fetched := r.fetched ++ [topic] }
    | (false, _, err) =>
      { r with
        stats := { r.stats with
          failed := r.stats.failed + 1
          errors := r.stats.errors ++ [topic ++ strLit ": " ++ err.getD []] }
        log := r.log ++ ((topic ++ strLit ": " ++ err.getD []) ++ strLit "\n")
        fetched := r.fetched ++ [topic] }

/-- Header written to the error log at lines 197-199. -/
def log_header (level : Nat) (startTime : Str) : Str :=
  strLit "Error log for Level " ++ natToStr level ++ strLit "\n"
    ++ (strLit "Started: " ++ startTime ++ strLit "\n")
    ++ (eqBar ++ strLit "\n\n")

/-- Footer written to the error log at lines 223-225. -/
def log_footer (endTime : Str) (s f k : Nat) : Str :=
  (strLit "\n" ++ eqBar ++ strLit "\n")
    ++ (strLit "Completed: " ++ endTime ++ strLit "\n")
    ++ (strLit "Success: " ++ natToStr s ++ strLit ", Failed: " ++ natToStr f
        ++ strLit ", Skipped: " ++ natToStr k ++ strLit "\n")

/-- `process_level` (lines 155-227), with the articles list of the level's
JSON file, the persistence existence query, the retrieval collaborator and
the two timestamps passed in. -/
def process_level (retrieve : Str → Retrieval) (exists_output : Str → Bool)
    (level : Nat) (articles : List Str) (resume : Bool)
    (startTime endTime : Str) : RunResult :=
  let init : RunResult :=
    { stats := { level := level, total := articles.length, success := 0,
                 failed := 0, skipped := 0, errors := [] }
      log := log_header level startTime
      saved := []
      fetched := [] }
  let r := articles.foldl (process_topic retrieve exists_output level resume) init
  { r with
    log := r.log ++ log_footer endTime r.stats.success r.stats.failed r.stats.skipped }

/-- Content of the per-level error-log file after a run of
`process_level`.  The file is opened with mode `w` at line 196, which
truncates: the previous content `prevContent` is discarded and only the
run's own writes remain. -/
def error_log_after_run (prevContent : Str) (retrieve : Str → Retrieval)
    (exists_output : Str → Bool) (level : Nat) (articles : List Str)
    (resume : Bool) (startTime endTime : Str) : Str :=
  (process_level retrieve exists_output level articles resume startTime endTime).log

/-- Expected error-log entry for one topic, by cases on the retrieval
outcome; `none` for a successful retrieval.  Matches the messages built by
`generate_markdown` and the `topic: message` format of line 219. -/
def error_entry_of (retrieve : Str → Retrieval) (topic : Str) : Option Str :=
  match retrieve topic with
  | .success _ => none
  | .disambiguation opts =>
    some (topic ++ strLit ": " ++ (strLit "Disambiguation page: " ++ pyListRepr (opts.take 3)))
  | .pageError => some (topic ++ strLit ": " ++ strLit "Page not found")
  | .otherError msg => some (topic ++ strLit ": " ++ (strLit "Error: " ++ msg))

/-- Concatenation of log lines, one trailing newline each. -/
def log_lines (entries : List Str) : Str :=
  entries.foldr (fun e acc => (e ++ strLit "\n") ++ acc) []

theorem log_lines_nil : log_lines [] = [] := rfl

theorem log_lines_cons (e : Str) (l : List Str) :
    log_lines (e :: l) = (e ++ strLit "\n") ++ log_lines l := rfl

/-- Characterization of the `process_level` fold: every component of the
final state, for an arbitrary initial state. -/
theorem process_topic_foldl_spec (retrieve : Str → Retrieval)
    (ex : Str → Bool) (level : Nat) (resume : Bool) :
    ∀ (articles : List Str) (r : RunResult),
      (articles.foldl (process_topic retrieve ex level resume) r).stats.total
          = r.stats.total
      ∧ (articles.foldl (process_topic retrieve ex level resume) r).stats.level
          = r.stats.level
      ∧ (articles.foldl (process_topic retrieve ex level resume) r).stats.skipped
          = r.stats.skipped + (articles.filter (skip_check ex level resume)).length
      ∧ (articles.foldl (process_topic retrieve ex level resume) r).fetched
          = r.fetched ++ articles.filter (fun t => !(skip_check ex level resume t))
      ∧ (articles.foldl (process_topic retrieve ex level resume) r).stats.errors
          = r.stats.errors ++ (articles.filter (fun t => !(skip_check ex level resume t))).filterMap
              (error_entry_of retrieve)
      ∧ (articles.foldl (process_topic retrieve ex level resume) r).stats.failed
          = r.stats.failed + ((articles.filter (fun t => !(skip_check ex level resume t))).filterMap
              (error_entry_of retrieve)).length
      ∧ (articles.foldl (process_topic retrieve ex level resume) r).stats.success
          = r.stats.success + ((articles.filter (fun t => !(skip_check ex level resume t))).filter
              (fun t => (error_entry_of retrieve t).isNone)).length
      ∧ (articles.foldl (process_topic retrieve ex level resume) r).log
          = r.log ++ log_lines ((articles.filter (fun t => !(skip_check ex level resume t))).filterMap
              (error_entry_of retrieve)) := by
  intro articles
  induction articles with
  | nil =>
    intro r
    refine ⟨rfl, rfl, by simp, by simp, by simp, by simp, by simp, by simp [log_lines_nil]⟩
  | cons t ts ih =>
    intro r
    rw [List.foldl_cons]
    by_cases hs : skip_check ex level resume t = true
    · have hstep : process_topic retrieve ex level resume r t =
          { r with stats := { r.stats with skipped := r.stats.skipped + 1 } } := by
        unfold process_topic
        rw [if_pos hs]
      rw [hstep]
      obtain ⟨i1, i2, i3, i4, i5, i6, i7, i8⟩ :=
        ih { r with stats := { r.stats with skipped := r.stats.skipped + 1 } }
      refine ⟨by rw [i1], by rw [i2], ?_, ?_, ?_, ?_, ?_, ?_⟩
      · rw [i3]; simp [List.filter_cons, hs]; omega
      · rw [i4]; simp [List.filter_cons, hs]
      · rw [i5]; simp [List.filter_cons, hs]
      · rw [i6]; simp [List.filter_cons, hs]
      · rw [i7]; simp [List.filter_cons, hs]
      · rw [i8]; simp [List.filter_cons, hs]
    · have hs' : skip_check ex level resume t = false := by
        cases hb : skip_check ex level resume t
        · rfl
        · exact absurd hb hs
      cases hr : retrieve t with
      | success page =>
        have hstep : process_topic retrieve ex level resume r t =
            { r with
              stats := { r.stats with success := r.stats.success + 1 }
              saved := r.saved ++
                [(t, strLit "# " ++ page.title ++ strLit "\n\n"
                  ++ clean_content page.content
                  ++ strLit "\n\n---\n*Source: " ++ page.url ++ strLit "*\n")]
              fetched := r.fetched ++ [t] } := by
          unfold process_topic
          rw [if_neg hs]
          unfold generate_markdown
          rw [hr]
          rfl
        rw [hstep]
        obtain ⟨i1, i2, i3, i4, i5, i6, i7, i8⟩ := ih _
        have he : error_entry_of retrieve t = none := by
          unfold error_entry_of; rw [hr]
        refine ⟨by rw [i1], by rw [i2], ?_, ?_, ?_, ?_, ?_, ?_⟩
        · rw [i3]; simp [List.filter_cons, hs']
        · rw [i4]; simp [List.filter_cons, hs']
        · rw [i5]; simp [List.filter_cons, hs', he]
        · rw [i6]; simp [List.filter_cons, hs', he]
        · rw [i7]; simp [List.filter_cons, hs', he]; omega
        · rw [i8]; simp [List.filter_cons, hs', he]
      | disambiguation opts =>
        have hstep : process_topic retrieve ex level resume r t =
            { r with
              stats := { r.stats with
                failed := r.stats.failed + 1
                errors := r.stats.errors ++
                  [t ++ strLit ": " ++ (strLit "Disambiguation page: " ++ pyListRepr (opts.take 3))] }
              log := r.log ++
                ((t ++ strLit ": " ++ (strLit "Disambiguation page: " ++ pyListRepr (opts.take 3)))
                  ++ strLit "\n")
              fetched := r.fetched ++ [t] } := by
          unfold process_topic
          rw [if_neg hs]
          unfold generate_markdown
          rw [hr]
          rfl
        rw [hstep]
        obtain ⟨i1, i2, i3, i4, i5, i6, i7, i8⟩ := ih _
        have he : error_entry_of retrieve t =
            some (t ++ strLit ": " ++ (strLit "Disambiguation page: " ++ pyListRepr (opts.take 3))) := by
          unfold error_entry_of; rw [hr]
        refine ⟨by rw [i1], by rw [i2], ?_, ?_, ?_, ?_, ?_, ?_⟩
        · rw [i3]; simp [List.filter_cons, hs']
        · rw [i4]; simp [List.filter_cons, hs']
        · rw [i5]; simp [List.filter_cons, hs', he]
        · rw [i6]; simp [List.filter_cons, hs', he]; omega
        · rw [i7]; simp [List.filter_cons, hs', he]
        · rw [i8]; simp [List.filter_cons, hs', he, log_lines_cons]
      | pageError =>
        have hstep : process_topic retrieve ex level resume r t =
            { r with
              stats := { r.stats with
                failed := r.stats.failed + 1
                errors := r.stats.errors ++ [t ++ strLit ": " ++ strLit "Page not found"] }
              log := r.log ++ ((t ++ strLit ": " ++ strLit "Page not found") ++ strLit "\n")
              fetched := r.fetched ++ [t] } := by
          unfold process_topic
          rw [if_neg hs]
          unfold generate_markdown
          rw [hr]
          rfl
        rw [hstep]
        obtain ⟨i1, i2, i3, i4, i5, i6, i7, i8⟩ := ih _
        have he : error_entry_of retrieve t =
            some (t ++ strLit ": " ++ strLit "Page not found") := by
          unfold error_entry_of; rw [hr]
        refine ⟨by rw [i1], by rw [i2], ?_, ?_, ?_, ?_, ?_, ?_⟩
        · rw [i3]; simp [List.filter_cons, hs']
        · rw [i4]; simp [List.filter_cons, hs']
        · rw [i5]; simp [List.filter_cons, hs', he]
        · rw [i6]; simp [List.filter_cons, hs', he]; omega
        · rw [i7]; simp [List.filter_cons, hs', he]
        · rw [i8]; simp [List.filter_cons, hs', he, log_lines_cons]
      | otherError msg =>
        have hstep : process_topic retrieve ex level resume r t =
            { r with
              stats := { r.stats with
                failed := r.stats.failed + 1
                errors := r.stats.errors ++ [t ++ strLit ": " ++ (strLit "Error: " ++ msg)] }
              log := r.log ++ ((t ++ strLit ": " ++ (strLit "Error: " ++ msg)) ++ strLit "\n")
              fetched := r.fetched ++ [t] } := by
          unfold process_topic
          rw [if_neg hs]
          unfold generate_markdown
          rw [hr]
          rfl
        rw [hstep]
        obtain ⟨i1, i2, i3, i4, i5, i6, i7, i8⟩ := ih _
        have he : error_entry_of retrieve t =
            some (t ++ strLit ": " ++ (strLit "Error: " ++ msg)) := by
          unfold error_entry_of; rw [hr]
        refine ⟨by rw [i1], by rw [i2], ?_, ?_, ?_, ?_, ?_, ?_⟩
        · rw [i3]; simp [List.filter_cons, hs']
        · rw [i4]; simp [List.filter_cons, hs']
        · rw [i5]; simp [List.filter_cons, hs', he]
        · rw [i6]; simp [List.filter_cons, hs', he]; omega
        · rw [i7]; simp [List.filter_cons, hs', he]
        · rw [i8]; simp [List.filter_cons, hs', he, log_lines_cons]

theorem length_filter_split {α} (p : α → Bool) :
    ∀ l : List α, (l.filter p).length + (l.filter (fun a => !(p a))).length = l.length := by
  intro l
  induction l with
  | nil => rfl
  | cons a l ih =>
    by_cases h : p a = true
    · simp [List.filter_cons, h]; omega
    · have h' : p a = false := by
        cases hb : p a
        · rfl
        · exact absurd hb h
      simp [List.filter_cons, h']; omega

theorem length_filterMap_isNone_split {α β} (f : α → Option β) :
    ∀ l : List α,
      (l.filter (fun a => (f a).isNone)).length + (l.filterMap f).length = l.length := by
  intro l
  induction l with
  | nil => rfl
  | cons a l ih =>
    cases hf : f a with
    | none => simp [List.filter_cons, List.filterMap_cons, hf]; omega
    | some b => simp [List.filter_cons, List.filterMap_cons, hf]; omega

theorem filter_all_true {α} (p : α → Bool) :
    ∀ l : List α, (∀ a ∈ l, p a = true) → l.filter p = l := by
  intro l
  induction l with
  | nil => intro _; rfl
  | cons a l ih =>
    intro h
    rw [List.filter_cons, if_pos (h a (List.mem_cons_self a l))]
    rw [ih (fun x hx => h x (List.mem_cons_of_mem a hx))]

theorem filter_all_false {α} (p : α → Bool) :
    ∀ l : List α, (∀ a ∈ l, p a = false) → l.filter p = [] := by
  intro l
  induction l with
  | nil => intro _; rfl
  | cons a l ih =>
    intro h
    rw [List.filter_cons, if_neg (by rw [h a (List.mem_cons_self a l)]; simp)]
    exact ih (fun x hx => h x (List.mem_cons_of_mem a hx))

/-- Characterization of `process_level`: all report components and the
error-log content, in terms of the input list and the collaborators. -/
theorem process_level_spec (retrieve : Str → Retrieval) (ex : Str → Bool)
    (level : Nat) (articles : List Str) (resume : Bool) (st et : Str) :
    (process_level retrieve ex level articles resume st et).stats.total = articles.length
    ∧ (process_level retrieve ex level articles resume st et).stats.level = level
    ∧ (process_level retrieve ex level articles resume st et).stats.skipped
        = (articles.filter (skip_check ex level resume)).length
    ∧ (process_level retrieve ex level articles resume st et).fetched
        = articles.filter (fun t => !(skip_check ex level resume t))
    ∧ (process_level retrieve ex level articles resume st et).stats.errors
        = (articles.filter (fun t => !(skip_check ex level resume t))).filterMap
            (error_entry_of retrieve)
    ∧ (process_level retrieve ex level articles resume st et).stats.failed
        = ((articles.filter (fun t => !(skip_check ex level resume t))).filterMap
            (error_entry_of retrieve)).length
    ∧ (process_level retrieve ex level articles resume st et).stats.success
        = ((articles.filter (fun t => !(skip_check ex level resume t))).filter
            (fun t => (error_entry_of retrieve t).isNone)).length
    ∧ (process_level retrieve ex level articles resume st et).log
        = log_header level st
          ++ log_lines ((articles.filter (fun t => !(skip_check ex level resume t))).filterMap
              (error_entry_of retrieve))
          ++ log_footer et
              (process_level retrieve ex level articles resume st et).stats.success
              (process_level retrieve ex level articles resume st et).stats.failed
              (process_level retrieve ex level articles resume st et).stats.skipped := by
  obtain ⟨i1, i2, i3, i4, i5, i6, i7, i8⟩ :=
    process_topic_foldl_spec retrieve ex level resume articles
      { stats := { level := level, total := articles.length, success := 0,
                   failed := 0, skipped := 0, errors := [] }
        log := log_header level st
        saved := []
        fetched := [] }
  unfold process_level
  simp only []
  refine ⟨by rw [i1], by rw [i2], by rw [i3]; simp, by rw [i4]; simp,
    by rw [i5]; simp, by rw [i6]; simp, by rw [i7]; simp, ?_⟩
  rw [i8, i7, i6, i3]

/- ------------------------------------------------------------------ -/
/- Claim C7                                                            -/
/- ------------------------------------------------------------------ -/

/-- C7: the error report of `process_level` lists exactly one
`target: reason` entry, in order, for every non-skipped target whose
retrieval fails (document not found, disambiguation with the first three
candidate titles, or any other error as classified by `error_entry_of`),
the failed counter equals the number of those entries, and every target of
the input contributes exactly one outcome — each retrieval exception is
converted into a report entry, never propagated. -/
theorem claim7_theorem (retrieve : Str → Retrieval) (ex : Str → Bool)
    (level : Nat) (articles : List Str) (resume : Bool) (st et : Str) :
    (process_level retrieve ex level articles resume st et).stats.errors
      = (articles.filter (fun t => !(skip_check ex level resume t))).filterMap
          (error_entry_of retrieve)
    ∧ (process_level retrieve ex level articles resume st et).stats.failed
      = (process_level retrieve ex level articles resume st et).stats.errors.length := by
  obtain ⟨h1, h2, h3, h4, h5, h6, h7, h8⟩ :=
    process_level_spec retrieve ex level articles resume st et
  exact ⟨h5, by rw [h6, h5]⟩

/- ------------------------------------------------------------------ -/
/- Claim C8                                                            -/
/- ------------------------------------------------------------------ -/

/-- C8: in resume mode, every target whose output artifact exists is
skipped without any retrieval; when all artifacts exist the report shows
skipped equal to total, zero successes, and no retrieval is performed at
all. -/
theorem claim8_theorem (retrieve : Str → Retrieval) (ex : Str → Bool)
    (level : Nat) (articles : List Str) (st et : Str)
    (hall : ∀ t ∈ articles, ex (output_file level t) = true) :
    (process_level retrieve ex level articles true st et).stats.skipped
      = (process_level retrieve ex level articles true st et).stats.total
    ∧ (process_level retrieve ex level articles true st et).stats.success = 0
    ∧ (process_level retrieve ex level articles true st et).fetched = [] := by
  obtain ⟨h1, h2, h3, h4, h5, h6, h7, h8⟩ :=
    process_level_spec retrieve ex level articles true st et
  have hskipall : ∀ t ∈ articles, skip_check ex level true t = true := by
    intro t ht
    unfold skip_check
    rw [hall t ht]
    rfl
  have hf1 : articles.filter (skip_check ex level true) = articles :=
    filter_all_true _ articles hskipall
  have hf2 : articles.filter (fun t => !(skip_check ex level true t)) = [] :=
    filter_all_false _ articles (by intro t ht; rw [hskipall t ht]; rfl)
  refine ⟨?_, ?_, ?_⟩
  · rw [h3, h1, hf1]
  · rw [h7, hf2]; rfl
  · rw [h4, hf2]

/-- Witness for C8: two targets, both artifacts present. -/
theorem claim8_witness :
    (process_level (fun _ => Retrieval.pageError) (fun _ => true) 1
        [strLit "A", strLit "B"] true [] []).stats.skipped
      = (process_level (fun _ => Retrieval.pageError) (fun _ => true) 1
          [strLit "A", strLit "B"] true [] []).stats.total
    ∧ (process_level (fun _ => Retrieval.pageError) (fun _ => true) 1
        [strLit "A", strLit "B"] true [] []).stats.success = 0
    ∧ (process_level (fun _ => Retrieval.pageError) (fun _ => true) 1
        [strLit "A", strLit "B"] true [] []).fetched = [] :=
  claim8_theorem (fun _ => Retrieval.pageError) (fun _ => true) 1
    [strLit "A", strLit "B"] [] [] (fun _ _ => rfl)

/- ------------------------------------------------------------------ -/
/- Claim C9                                                            -/
/- ------------------------------------------------------------------ -/

/-- C9 counterexample: the error log is not append-only.  With content
"OLDCONTENT" present before a run, the log after the run is identical to a
run over an empty prior file and no longer contains the old content — the
file is opened in write mode and truncated. -/
theorem claim9_counterexample :
    error_log_after_run (strLit "OLDCONTENT") (fun _ => Retrieval.pageError)
        (fun _ => false) 1 [strLit "A"] false [] []
      = error_log_after_run [] (fun _ => Retrieval.pageError)
        (fun _ => false) 1 [strLit "A"] false [] []
    ∧ isSubstring (strLit "OLDCONTENT")
        (error_log_after_run (strLit "OLDCONTENT") (fun _ => Retrieval.pageError)
          (fun _ => false) 1 [strLit "A"] false [] []) = false := by
  exact ⟨rfl, by decide⟩

/-- C9 (amended): the per-level error log is rewritten on every run of
`process_level`: the file is opened in write mode, so independently of any
previous content it afterwards contains exactly the run's header, one line
per failure — the report's error entries in order — and the footer with the
summary counts. -/
theorem claim9_theorem (prev : Str) (retrieve : Str → Retrieval)
    (ex : Str → Bool) (level : Nat) (articles : List Str) (resume : Bool)
    (st et : Str) :
    error_log_after_run prev retrieve ex level articles resume st et
      = log_header level st
        ++ log_lines ((process_level retrieve ex level articles resume st et).stats.errors)
        ++ log_footer et
            (process_level retrieve ex level articles resume st et).stats.success
            (process_level retrieve ex level articles resume st et).stats.failed
            (process_level retrieve ex level articles resume st et).stats.skipped := by
  obtain ⟨h1, h2, h3, h4, h5, h6, h7, h8⟩ :=
    process_level_spec retrieve ex level articles resume st et
  unfold error_log_after_run
  rw [h5, h8]

/- ------------------------------------------------------------------ -/
/- Claim C10                                                           -/
/- ------------------------------------------------------------------ -/

/-- C10: for every input articles list and every combination of resume flag
and per-target outcomes, the report of `process_level` satisfies
success + failed + skipped = total with total the input length, and the
error list has exactly `failed` entries. -/
theorem claim10_theorem (retrieve : Str → Retrieval) (ex : Str → Bool)
    (level : Nat) (articles : List Str) (resume : Bool) (st et : Str) :
    (process_level retrieve ex level articles resume st et).stats.success
        + (process_level retrieve ex level articles resume st et).stats.failed
        + (process_level retrieve ex level articles resume st et).stats.skipped
      = (process_level retrieve ex level articles resume st et).stats.total
    ∧ (process_level retrieve ex level articles resume st et).stats.total
      = articles.length
    ∧ (process_level retrieve ex level articles resume st et).stats.errors.length
      = (process_level retrieve ex level articles resume st et).stats.failed := by
  obtain ⟨h1, h2, h3, h4, h5, h6, h7, h8⟩ :=
    process_level_spec retrieve ex level articles resume st et
  refine ⟨?_, h1, by rw [h5, h6]⟩
  rw [h7, h6, h3, h1]
  have A := length_filterMap_isNone_split (error_entry_of retrieve)
    (articles.filter (fun t => !(skip_check ex level resume t)))
  have B := length_filter_split (skip_check ex level resume) articles
  omega

end VA
